import Mathlib

/-!
Verification development for the pumpfun-bot repository.

The Python sources are embedded shallowly:
* monetary and token quantities (Python `float` / `Decimal`) are modelled as
  exact rationals `ℚ`;
* the mutable objects (`PaperTradingEngine`, `TokenDetector`,
  `TradingStrategy`) become explicit state records threaded through pure
  functions;
* Python exceptions (`ValueError`, `RuntimeError`) become `Except` errors;
* external collaborators (wall clock, price feed, volume feed, the
  environment) become explicit parameters of the functions that consult them.
-/

namespace PumpBot

/-! ## Association lists

Python `dict`s keyed by the token mint are modelled as association lists
with unique keys maintained by `ainsert` (which replaces an existing
binding, as `d[k] = v` does) and `aremove` (which drops the binding, as
`del d[k]` does). -/

def alookup {α : Type} (m : String) : List (String × α) → Option α
  | [] => none
  | (k, v) :: rest => if k = m then some v else alookup m rest

def ainsert {α : Type} (m : String) (p : α) : List (String × α) → List (String × α)
  | [] => [(m, p)]
  | (k, v) :: rest => if k = m then (m, p) :: rest else (k, v) :: ainsert m p rest

def aremove {α : Type} (m : String) (l : List (String × α)) : List (String × α) :=
  l.filter (fun kv => kv.1 ≠ m)

theorem mem_ainsert {α : Type} {m : String} {p : α} {l : List (String × α)}
    {q : String × α} (h : q ∈ ainsert m p l) : q = (m, p) ∨ q ∈ l := by
  induction l with
  | nil => simpa [ainsert] using h
  | cons kv rest ih =>
    obtain ⟨k, v⟩ := kv
    by_cases hk : k = m
    · rw [ainsert, if_pos hk] at h
      rcases List.mem_cons.mp h with h' | h'
      · exact Or.inl h'
      · exact Or.inr (List.mem_cons_of_mem _ h')
    · rw [ainsert, if_neg hk] at h
      rcases List.mem_cons.mp h with h' | h'
      · exact Or.inr (h' ▸ List.mem_cons_self _ _)
      · rcases ih h' with h'' | h''
        · exact Or.inl h''
        · exact Or.inr (List.mem_cons_of_mem _ h'')

theorem mem_aremove {α : Type} {m : String} {l : List (String × α)}
    {q : String × α} (h : q ∈ aremove m l) : q ∈ l :=
  List.mem_of_mem_filter h

theorem alookup_ainsert_self {α : Type} (m : String) (p : α)
    (l : List (String × α)) : alookup m (ainsert m p l) = some p := by
  induction l with
  | nil => simp [ainsert, alookup]
  | cons kv rest ih =>
    by_cases hk : kv.1 = m
    · simp [ainsert, hk, alookup]
    · simp [ainsert, hk, alookup, ih]

theorem alookup_aremove_self {α : Type} (m : String)
    (l : List (String × α)) : alookup m (aremove m l) = none := by
  induction l with
  | nil => simp [aremove, alookup]
  | cons kv rest ih =>
    by_cases hk : kv.1 = m
    · simpa [aremove, hk] using ih
    · simpa [aremove, hk, alookup] using ih

/-! ## Bonding curve (`src/core/bonding_curve.py`)

`BondingCurve` holds the three configured initial reserve values; the
constant product `k` is computed from them exactly as in `__init__`.
`Decimal` arithmetic is modelled as exact rational arithmetic; Lean's
total division returns `0` where Python `Decimal` division by zero would
raise, and the div-by-zero branches are kept out of every theorem by the
positivity hypotheses. -/

structure BondingCurve where
  initial_virtual_sol_reserves : ℚ
  initial_virtual_token_reserves : ℚ
  initial_real_token_reserves : ℚ
deriving DecidableEq, Repr

/-- The constant product `k = x * y`, fixed at construction (`BondingCurve.__init__`). -/
def BondingCurve.k (c : BondingCurve) : ℚ :=
  c.initial_virtual_sol_reserves * c.initial_virtual_token_reserves

/-- The default pump.fun parameters of `create_bonding_curve`. -/
def defaultCurve : BondingCurve :=
  { initial_virtual_sol_reserves := 30
    initial_virtual_token_reserves := 1073000000
    initial_real_token_reserves := 793100000 }

/-- Source `BondingCurve.calculate_tokens_out`: tokens received for a SOL input
(buy side).  Returns `(tokens_out, effective_price)`. -/
def BondingCurve.calculate_tokens_out (c : BondingCurve)
    (sol_amount current_sol_in_curve : ℚ) : ℚ × ℚ :=
  let virtual_sol := c.initial_virtual_sol_reserves + current_sol_in_curve
  let virtual_tokens := c.k / virtual_sol
  let new_virtual_sol := virtual_sol + sol_amount
  let new_virtual_tokens := c.k / new_virtual_sol
  let tokens_out := virtual_tokens - new_virtual_tokens
  let effective_price := if tokens_out > 0 then sol_amount / tokens_out else 0
  (tokens_out, effective_price)

/-- Source `BondingCurve.calculate_sol_out`: SOL received for a token input
(sell side).  Returns `(sol_out, effective_price)`. -/
def BondingCurve.calculate_sol_out (c : BondingCurve)
    (token_amount current_sol_in_curve : ℚ) : ℚ × ℚ :=
  let virtual_sol := c.initial_virtual_sol_reserves + current_sol_in_curve
  let virtual_tokens := c.k / virtual_sol
  let new_virtual_tokens := virtual_tokens + token_amount
  let new_virtual_sol := c.k / new_virtual_tokens
  let sol_out := virtual_sol - new_virtual_sol
  let effective_price := if token_amount > 0 then sol_out / token_amount else 0
  (sol_out, effective_price)

/-- The `is_buy=True` branch of `simulate_trade_with_slippage`.  The
`price_impact_pct` diagnostic entry of the returned dict is omitted: it is
consumed by no caller in the repository. -/
structure BuySim where
  tokens_out : ℚ
  tokens_out_with_slippage : ℚ
  effective_price : ℚ
deriving DecidableEq, Repr

def BondingCurve.simulate_buy_with_slippage (c : BondingCurve)
    (sol_amount current_sol_in_curve slippage_bps : ℚ) : BuySim :=
  let slippage_multiplier := 1 + slippage_bps / 10000
  let r := c.calculate_tokens_out sol_amount current_sol_in_curve
  { tokens_out := r.1
    tokens_out_with_slippage := r.1 / slippage_multiplier
    effective_price := r.2 }

/-- The `is_buy=False` branch of `simulate_trade_with_slippage` (the
`sol_amount` argument is the token amount there).  The `price_impact_pct`
diagnostic entry is omitted as above. -/
structure SellSim where
  sol_out : ℚ
  sol_out_with_slippage : ℚ
  effective_price : ℚ
deriving DecidableEq, Repr

def BondingCurve.simulate_sell_with_slippage (c : BondingCurve)
    (token_amount current_sol_in_curve slippage_bps : ℚ) : SellSim :=
  let slippage_multiplier := 1 + slippage_bps / 10000
  let r := c.calculate_sol_out token_amount current_sol_in_curve
  { sol_out := r.1
    sol_out_with_slippage := r.1 / slippage_multiplier
    effective_price := r.2 }

/-! ## Paper trading engine / Ledger (`src/utils/paper_engine.py`)

The engine state carries the SOL balance, the two fixed fee parameters,
the open positions (a dict keyed by mint), and the trade log.  Redis
persistence of `_record_trade` is modelled as appending to the in-state
trade log; the day-keying, 30-day expiry and `get_daily_pnl` are external
persistence plumbing and are not needed by any claim.  `time.time()`
becomes an explicit `now` argument. -/

structure PaperPosition where
  entry_time : ℚ
  entry_price : ℚ
  tokens : ℚ
  sol_invested : ℚ
  fees_paid : ℚ
deriving DecidableEq, Repr

structure TradeRecord where
  trade_type : String
  mint : String
  sol_amount : ℚ
  tokens_amount : ℚ
  price : ℚ
  profit_sol : ℚ
  profit_pct : ℚ
  reason : String
  timestamp : ℚ
deriving DecidableEq, Repr

structure PaperEngine where
  balance_sol : ℚ
  simulated_network_fee : ℚ
  simulated_priority_fee : ℚ
  positions : List (String × PaperPosition)
  trades : List TradeRecord
deriving DecidableEq, Repr

/-- The `ValueError`s raised by the engine's validation checks. -/
inductive TradeError where
  | insufficientBalance
  | noPosition
  | insufficientTokens
deriving DecidableEq, Repr

structure BuyResult where
  mint : String
  sol_spent : ℚ
  tokens_received : ℚ
  price : ℚ
  fees : ℚ
  timestamp : ℚ
deriving DecidableEq, Repr

structure SellResult where
  mint : String
  tokens_sold : ℚ
  sol_received : ℚ
  price : ℚ
  profit_sol : ℚ
  profit_pct : ℚ
  fees : ℚ
  reason : String
  timestamp : ℚ
deriving DecidableEq, Repr

/-- Source `PaperTradingEngine.execute_buy`.  Note that on success the position
for `mint` is assigned (`self.positions[mint] = position`), replacing any
existing position for that mint. -/
def PaperEngine.execute_buy (e : PaperEngine) (mint : String)
    (sol_amount tokens_received price : ℚ) (now : ℚ) :
    Except TradeError (BuyResult × PaperEngine) :=
  let total_fee := e.simulated_network_fee + e.simulated_priority_fee
  let total_cost := sol_amount + total_fee
  if total_cost > e.balance_sol then
    .error .insufficientBalance
  else
    let position : PaperPosition :=
      { entry_time := now
        entry_price := price
        tokens := tokens_received
        sol_invested := sol_amount
        fees_paid := total_fee }
    let record : TradeRecord :=
      { trade_type := "buy"
        mint := mint
        sol_amount := sol_amount
        tokens_amount := tokens_received
        price := price
        profit_sol := 0
        profit_pct := 0
        reason := ""
        timestamp := now }
    let e' : PaperEngine :=
      { e with
        balance_sol := e.balance_sol - total_cost
        positions := ainsert mint position e.positions
        trades := e.trades ++ [record] }
    .ok
      ({ mint := mint
         sol_spent := sol_amount
         tokens_received := tokens_received
         price := price
         fees := total_fee
         timestamp := now }, e')

/-- Source `PaperTradingEngine.execute_sell`.  The proportion `tokens_sold /
position.tokens` uses Lean's total division, which yields `0` for a
zero-quantity position where Python would raise `ZeroDivisionError`; all
theorems below reach this code only with positive position quantities. -/
def PaperEngine.execute_sell (e : PaperEngine) (mint : String)
    (tokens_sold sol_received price : ℚ) (reason : String) (now : ℚ) :
    Except TradeError (SellResult × PaperEngine) :=
  match alookup mint e.positions with
  | none => .error .noPosition
  | some position =>
    if tokens_sold > position.tokens then
      .error .insufficientTokens
    else
      let total_fee := e.simulated_network_fee + e.simulated_priority_fee
      let net_sol_received := sol_received - total_fee
      let balance' := e.balance_sol + net_sol_received
      let proportion_sold := tokens_sold / position.tokens
      let sol_invested := position.sol_invested * proportion_sold
      let profit_sol := net_sol_received - sol_invested
      let profit_pct := if sol_invested > 0 then profit_sol / sol_invested * 100 else 0
      let positions' :=
        if tokens_sold ≥ position.tokens then
          aremove mint e.positions
        else
          ainsert mint
            { position with
              tokens := position.tokens - tokens_sold
              sol_invested := position.sol_invested - sol_invested }
            e.positions
      let record : TradeRecord :=
        { trade_type := "sell"
          mint := mint
          sol_amount := net_sol_received
          tokens_amount := tokens_sold
          price := price
          profit_sol := profit_sol
          profit_pct := profit_pct
          reason := reason
          timestamp := now }
      .ok
        ({ mint := mint
           tokens_sold := tokens_sold
           sol_received := net_sol_received
           price := price
           profit_sol := profit_sol
           profit_pct := profit_pct
           fees := total_fee
           reason := reason
           timestamp := now },
         { e with
           balance_sol := balance'
           positions := positions'
           trades := e.trades ++ [record] })

/-- Source `PaperTradingEngine.get_position`. -/
def PaperEngine.get_position (e : PaperEngine) (mint : String) : Option PaperPosition :=
  alookup mint e.positions

/-! ### Sequences of ledger operations

A validated operation that raises leaves the engine unchanged: in the
Python both validation checks run before any mutation, so the exception
propagates with the state intact.  `runOps` threads the engine through a
list of operations, keeping the prior state whenever an operation fails. -/

inductive LedgerOp where
  | buy (mint : String) (sol_amount tokens_received price now : ℚ)
  | sell (mint : String) (tokens_sold sol_received price : ℚ) (reason : String) (now : ℚ)
deriving DecidableEq, Repr

def PaperEngine.applyOp (e : PaperEngine) : LedgerOp → Except TradeError PaperEngine
  | .buy mint sol_amount tokens_received price now =>
    (e.execute_buy mint sol_amount tokens_received price now).map Prod.snd
  | .sell mint tokens_sold sol_received price reason now =>
    (e.execute_sell mint tokens_sold sol_received price reason now).map Prod.snd

def runOps (e : PaperEngine) : List LedgerOp → PaperEngine
  | [] => e
  | op :: rest =>
    match e.applyOp op with
    | .ok e' => runOps e' rest
    | .error _ => runOps e rest

/-! ## Execution engine (`src/core/trader.py`)

`Trader.__init__` reads the trading mode from the config, calls
`_validate_mode()` (which raises on an invalid mode and, in live mode, on a
missing operator confirmation) and only afterwards creates the RPC clients
and, in paper mode, the `PaperTradingEngine`.  The process environment
variable `LIVE_MODE_CONFIRMED` is an explicit argument; the RPC clients are
external network resources with no bearing on any claim and are omitted. -/

inductive ConfigError where
  | invalidMode (mode : String)
  | liveNotConfirmed
deriving DecidableEq, Repr

/-- Python's `str.lower()`: character-wise lowercasing. -/
def strLower (s : String) : String :=
  ⟨s.data.map Char.toLower⟩

/-- Source `Trader._validate_mode`: `confirmed` is
`os.getenv("LIVE_MODE_CONFIRMED", "").lower() == "true"`. -/
def validateMode (mode : String) (live_mode_confirmed : Option String) :
    Except ConfigError Unit :=
  if mode ≠ "paper" ∧ mode ≠ "live" then
    .error (.invalidMode mode)
  else if mode = "live" then
    if strLower (live_mode_confirmed.getD "") = "true" then .ok ()
    else .error .liveNotConfirmed
  else .ok ()

structure TraderConfig where
  trading_mode : String
  entry_amount_sol : ℚ
  entry_slippage_bps : ℚ
  curve : BondingCurve
  paper_initial_balance : ℚ
  simulated_network_fee : ℚ
  simulated_priority_fee : ℚ
deriving DecidableEq, Repr

/-- Source `PaperTradingEngine.__init__`: fresh balance, no positions, no trades. -/
def initPaperEngine (cfg : TraderConfig) : PaperEngine :=
  { balance_sol := cfg.paper_initial_balance
    simulated_network_fee := cfg.simulated_network_fee
    simulated_priority_fee := cfg.simulated_priority_fee
    positions := []
    trades := [] }

structure TraderState where
  mode : String
  entry_amount_sol : ℚ
  entry_slippage_bps : ℚ
  curve : BondingCurve
  paper_engine : Option PaperEngine
deriving DecidableEq, Repr

/-- Source `Trader.__init__`: the mode is validated first; on a validation error
nothing further is constructed (the exception aborts `__init__` before the
paper engine — the only trade-capable component — exists). -/
def Trader.init (cfg : TraderConfig) (live_mode_confirmed : Option String) :
    Except ConfigError TraderState :=
  match validateMode cfg.trading_mode live_mode_confirmed with
  | .error err => .error err
  | .ok _ =>
    .ok
      { mode := cfg.trading_mode
        entry_amount_sol := cfg.entry_amount_sol
        entry_slippage_bps := cfg.entry_slippage_bps
        curve := cfg.curve
        paper_engine :=
          if cfg.trading_mode = "paper" then some (initPaperEngine cfg) else none }

def isOkE {ε α : Type} : Except ε α → Bool
  | .ok _ => true
  | .error _ => false

/-! ## Detector dedup-and-dispatch (`src/core/detector.py`)

Both the webhook handler and the DexScreener poller funnel every parsed
candidate into `TokenDetector._process_token`.  The state is the seen-set
and, standing in for the registered callback, the log of reports on which
the callback was invoked (one entry per invocation, in order).  A report
carries the candidate mint and its source tag. -/

structure TokenReport where
  mint : String
  source : String
deriving DecidableEq, Repr

structure DetectorState where
  seen_tokens : List String
  callback_log : List TokenReport
deriving DecidableEq, Repr

/-- Source `TokenDetector._process_token`: drop if seen, else mark seen and invoke
the callback.  (A callback exception is swallowed by the surrounding
`try/except` after the invocation, so it does not affect this state.) -/
def processToken (s : DetectorState) (td : TokenReport) : DetectorState :=
  if td.mint ∈ s.seen_tokens then s
  else
    { seen_tokens := td.mint :: s.seen_tokens
      callback_log := s.callback_log ++ [td] }

def processAll (s : DetectorState) (reports : List TokenReport) : DetectorState :=
  reports.foldl processToken s

def initialDetector : DetectorState :=
  { seen_tokens := [], callback_log := [] }

/-! ## Safety filters (`src/core/filters.py`)

`FilterResult.details` is a purely diagnostic dict echoing the checked
values; it is omitted here.  Reason strings keep the source wording, except
that interpolated numeric values are rendered with `toString` and the
quotes around a keyword are dropped. -/

structure FilterResult where
  passed : Bool
  reason : Option String
deriving DecidableEq, Repr

structure TokenFilters where
  min_first_buy_sol : ℚ
  require_mint_renounced : Bool
  max_sell_tax_percent : ℚ
  require_sell_simulation : Bool
  min_liquidity_sol : ℚ
  banned_keywords : List String
deriving DecidableEq, Repr

def TokenFilters.check_first_buy_size (f : TokenFilters) (first_buy_sol : ℚ) :
    FilterResult :=
  let passed := first_buy_sol ≥ f.min_first_buy_sol
  { passed := passed
    reason :=
      if passed then none
      else some ("First buy " ++ toString first_buy_sol ++ " SOL < "
        ++ toString f.min_first_buy_sol ++ " SOL minimum") }

def burned_addresses : List String :=
  ["11111111111111111111111111111111",
   "So11111111111111111111111111111111111111112"]

def TokenFilters.check_mint_authority (f : TokenFilters)
    (mint_authority : Option String) : FilterResult :=
  if ¬f.require_mint_renounced then { passed := true, reason := none }
  else
    let renounced :=
      match mint_authority with
      | none => true
      | some a => a ∈ burned_addresses
    { passed := renounced
      reason :=
        if renounced then none
        else some ("Mint authority not renounced: "
          ++ (mint_authority.getD "")) }

def TokenFilters.check_sell_tax (f : TokenFilters) (sell_tax_percent : ℚ) :
    FilterResult :=
  let passed := sell_tax_percent < f.max_sell_tax_percent
  { passed := passed
    reason :=
      if passed then none
      else some ("Sell tax " ++ toString sell_tax_percent ++ "% >= "
        ++ toString f.max_sell_tax_percent ++ "% maximum") }

def TokenFilters.check_sell_simulation (f : TokenFilters)
    (simulation_success : Bool) : FilterResult :=
  if ¬f.require_sell_simulation then { passed := true, reason := none }
  else
    { passed := simulation_success
      reason :=
        if simulation_success then none
        else some "Sell simulation failed (honeypot)" }

/-- Character `'x'` or `'X'` followed by at least two digits somewhere in the string:
the `re.IGNORECASE` search for the pattern `x\d\x7b2,\x7d`. -/
def hasXDigits : List Char → Bool
  | [] => false
  | a :: rest =>
    (match rest with
     | b :: c :: _ => (a = 'x' ∨ a = 'X') ∧ b.isDigit ∧ c.isDigit
     | _ => False) ||
    hasXDigits rest

/-- At least three digits immediately followed by `'x'` or `'X'` somewhere
in the string: the `re.IGNORECASE` search for the pattern `\d\x7b3,\x7dx`. -/
def hasDigitsX : List Char → Bool
  | [] => false
  | a :: rest =>
    (match rest with
     | b :: c :: d :: _ => a.isDigit ∧ b.isDigit ∧ c.isDigit ∧ (d = 'x' ∨ d = 'X')
     | _ => False) ||
    hasDigitsX rest

/-- Whether `needle` occurs as a contiguous run inside the character list. -/
def containsChars (needle : List Char) : List Char → Bool
  | [] => needle.isEmpty
  | c :: rest => needle.isPrefixOf (c :: rest) || containsChars needle rest

/-- Python's substring test `needle in hay`. -/
def containsSub (hay needle : String) : Bool :=
  containsChars needle.toList hay.toList

/-- Source `TokenFilters.check_token_name`: banned keywords are substring-matched
against the lowercased name and symbol, in configured order; then the four
suspicious patterns are searched case-insensitively, in source order
(`\$\$\$`, three rockets, `x` then two or more digits, three or more digits
then `x`). -/
def TokenFilters.check_token_name (f : TokenFilters) (name symbol : String) :
    FilterResult :=
  let name_lower := name.toLower
  let symbol_lower := symbol.toLower
  match f.banned_keywords.find?
      (fun kw => containsSub name_lower kw || containsSub symbol_lower kw) with
  | some kw =>
    { passed := false
      reason := some ("Name/symbol contains banned keyword: " ++ kw) }
  | none =>
    if containsSub name "$$$" || containsSub symbol "$$$" then
      { passed := false
        reason := some "Name/symbol contains suspicious pattern: \\$\\$\\$" }
    else if containsSub name "🚀🚀🚀" || containsSub symbol "🚀🚀🚀" then
      { passed := false
        reason := some "Name/symbol contains suspicious pattern: 🚀\x7b3,\x7d" }
    else if hasXDigits name.toList || hasXDigits symbol.toList then
      { passed := false
        reason := some "Name/symbol contains suspicious pattern: x\\d\x7b2,\x7d" }
    else if hasDigitsX name.toList || hasDigitsX symbol.toList then
      { passed := false
        reason := some "Name/symbol contains suspicious pattern: \\d\x7b3,\x7dx" }
    else { passed := true, reason := none }

def TokenFilters.check_liquidity (f : TokenFilters) (sol_in_curve : ℚ) :
    FilterResult :=
  let passed := sol_in_curve ≥ f.min_liquidity_sol
  { passed := passed
    reason :=
      if passed then none
      else some ("Liquidity " ++ toString sol_in_curve ++ " SOL < "
        ++ toString f.min_liquidity_sol ++ " SOL minimum") }

def TokenFilters.check_holder_distribution (_f : TokenFilters)
    (top_10_holders_pct dev_hold_pct : ℚ) : FilterResult :=
  if dev_hold_pct > 10 then
    { passed := false
      reason := some ("Dev holds " ++ toString dev_hold_pct
        ++ "% of supply (> 10% max)") }
  else if top_10_holders_pct > 80 then
    { passed := false
      reason := some ("Top 10 holders own " ++ toString top_10_holders_pct
        ++ "% (> 80% max)") }
  else { passed := true, reason := none }

/-- The `token_data` dict as consumed by `run_all_filters`: each required
key may be absent (`Option`); `mint_authority`, when the key is present,
itself holds an optional address (`None` means renounced). -/
structure TokenData where
  first_buy_sol : Option ℚ
  mint_authority : Option (Option String)
  sell_tax_percent : Option ℚ
  simulation_success : Option Bool
  name : Option String
  symbol : Option String
  sol_in_curve : Option ℚ
  top_10_holders_pct : Option ℚ
  dev_hold_pct : Option ℚ
deriving DecidableEq, Repr

/-- The first entry of the `required_fields` list absent from the record,
checked in source order. -/
def firstMissingField (t : TokenData) : Option String :=
  if t.first_buy_sol.isNone then some "first_buy_sol"
  else if t.mint_authority.isNone then some "mint_authority"
  else if t.sell_tax_percent.isNone then some "sell_tax_percent"
  else if t.simulation_success.isNone then some "simulation_success"
  else if t.name.isNone then some "name"
  else if t.symbol.isNone then some "symbol"
  else if t.sol_in_curve.isNone then some "sol_in_curve"
  else none

/-- Source `TokenFilters.run_all_filters`: verify required fields first and stop
at the first missing one; otherwise run every check (plus the holder check
when both its keys are present) and aggregate with `all`. -/
def TokenFilters.run_all_filters (f : TokenFilters) (t : TokenData) :
    Bool × List FilterResult :=
  match firstMissingField t with
  | some fld =>
    (false, [{ passed := false, reason := some ("Missing field: " ++ fld) }])
  | none =>
    let results : List FilterResult :=
      [f.check_first_buy_size (t.first_buy_sol.getD 0),
       f.check_mint_authority (t.mint_authority.getD none),
       f.check_sell_tax (t.sell_tax_percent.getD 0),
       f.check_sell_simulation (t.simulation_success.getD false),
       f.check_token_name (t.name.getD "") (t.symbol.getD ""),
       f.check_liquidity (t.sol_in_curve.getD 0)] ++
      (match t.top_10_holders_pct, t.dev_hold_pct with
       | some top10, some dev => [f.check_holder_distribution top10 dev]
       | _, _ => [])
    (results.all (·.passed), results)

/-! ## Strategy orchestrator (`src/core/strategy.py`)

The monitor loop calls `_check_exit_conditions(mint, position)` for every
open position once per tick.  Its external inputs — the current price
(`_get_current_price`, an `Optional` lookup), the wall clock
(`time.time()`), and the volume-drop signal (`_check_volume_drop`) — are
explicit arguments.  The strategy state pairs the monitored position map
with the paper engine the trader mutates. -/

structure StrategyConfig where
  take_profit_pct : ℚ
  take_profit_target : ℚ
  trailing_stop_enabled : Bool
  trailing_stop_activation : ℚ
  trailing_stop_pct : ℚ
  max_hold_time_min : ℚ
  volume_drop_threshold : ℚ
  entry_amount_sol : ℚ
  entry_slippage_bps : ℚ
  curve : BondingCurve
deriving DecidableEq, Repr

structure StrategyPosition where
  entry_time : ℚ
  entry_price : ℚ
  tokens : ℚ
  sol_invested : ℚ
  peak_price : ℚ
deriving DecidableEq, Repr

structure StrategyState where
  positions : List (String × StrategyPosition)
  engine : PaperEngine
deriving DecidableEq, Repr

/-- The mock current SOL-in-curve used by `Trader._sell_paper`
(`sol_in_curve = 10.0`, source line 199). -/
def mock_sol_in_curve : ℚ := 10

inductive TraderSellOutcome where
  | failure
  | raised (err : TradeError)
  | success (r : SellResult) (e : PaperEngine)
deriving DecidableEq, Repr

/-- Source `Trader._sell_paper` (paper mode path of `Trader.sell`): look up the
position (missing position returns `(False, None)`), simulate the sell on
the bonding curve at the mock SOL-in-curve, and record it in the paper
engine.  A `ValueError` raised by `execute_sell` is not caught here and
propagates (`raised`).  The spot-price lookup `get_price(sol_in_curve)`
computed alongside is dead code (its result is unused) and is omitted. -/
def Trader.sell_paper (cfg : StrategyConfig) (eng : PaperEngine)
    (mint : String) (token_amount : ℚ) (reason : String) (now : ℚ) :
    TraderSellOutcome :=
  match eng.get_position mint with
  | none => .failure
  | some _ =>
    let sim := cfg.curve.simulate_sell_with_slippage token_amount
      mock_sol_in_curve cfg.entry_slippage_bps
    match eng.execute_sell mint token_amount sim.sol_out_with_slippage
        sim.effective_price reason now with
    | .error err => .raised err
    | .ok (r, eng') => .success r eng'

structure SellStepResult where
  state : StrategyState
  succeeded : Bool
  raised : Option TradeError
deriving DecidableEq, Repr

/-- Source `TradingStrategy._execute_sell`: on a successful trader sell the mint's
entry is deleted from the monitored position map (whatever fraction was
sold); on failure the state is left unchanged. -/
def TradingStrategy.strategy_sell (cfg : StrategyConfig) (st : StrategyState)
    (mint : String) (amount : ℚ) (reason : String) (now : ℚ) : SellStepResult :=
  match Trader.sell_paper cfg st.engine mint amount reason now with
  | .success _ eng' =>
    { state := { positions := aremove mint st.positions, engine := eng' }
      succeeded := true
      raised := none }
  | .failure => { state := st, succeeded := false, raised := none }
  | .raised err => { state := st, succeeded := false, raised := some err }

inductive ExitKind where
  | takeProfit
  | trailingStop
  | maxHold
  | volumeDrop
deriving DecidableEq, Repr

structure TickOutcome where
  fired : Option ExitKind
  sellSucceeded : Bool
  raised : Option TradeError
  state : StrategyState
deriving DecidableEq, Repr

/-- Source `TradingStrategy._check_exit_conditions`.  Transcription notes:
* the peak-price update mutates the `Position` object stored in the map, so
  it is written back (`ainsert`) before any condition is checked;
* source condition 2 is a nested `if`: when the trailing stop is evaluated
  but the retracement test fails, control falls through to condition 3 —
  flattened here into one conjunction guarding the same branch;
* source condition 4 is `if volume_drop and volume_drop > threshold`: the
  Python truthiness test makes `None` and `0.0` both skip the branch;
* each fired condition performs one sell and returns, so at most one
  condition acts per tick;
* reason strings keep the source wording minus the interpolated
  percentages. -/
def TradingStrategy.check_exit_conditions (cfg : StrategyConfig)
    (st : StrategyState) (mint : String) (position : StrategyPosition)
    (current_price : Option ℚ) (now : ℚ) (volume_drop : Option ℚ) :
    TickOutcome :=
  match current_price with
  | none => { fired := none, sellSucceeded := false, raised := none, state := st }
  | some cp =>
    let profit_pct := (cp - position.entry_price) / position.entry_price * 100
    let position :=
      if cp > position.peak_price then { position with peak_price := cp }
      else position
    let st : StrategyState := { st with positions := ainsert mint position st.positions }
    let hold_time_min := (now - position.entry_time) / 60
    if profit_pct ≥ cfg.take_profit_target then
      let sell_amount := position.tokens * (cfg.take_profit_pct / 100)
      let r := TradingStrategy.strategy_sell cfg st mint sell_amount
        "Take profit" now
      { fired := some .takeProfit, sellSucceeded := r.succeeded
        raised := r.raised, state := r.state }
    else if cfg.trailing_stop_enabled = true
        ∧ profit_pct > cfg.trailing_stop_activation
        ∧ cp ≤ position.peak_price * (1 - cfg.trailing_stop_pct / 100) then
      let r := TradingStrategy.strategy_sell cfg st mint position.tokens
        "Trailing stop triggered" now
      { fired := some .trailingStop, sellSucceeded := r.succeeded
        raised := r.raised, state := r.state }
    else if hold_time_min ≥ cfg.max_hold_time_min then
      let r := TradingStrategy.strategy_sell cfg st mint position.tokens
        "Max hold time reached" now
      { fired := some .maxHold, sellSucceeded := r.succeeded
        raised := r.raised, state := r.state }
    else if volume_drop.getD 0 ≠ 0 ∧ volume_drop.getD 0 > cfg.volume_drop_threshold then
      let r := TradingStrategy.strategy_sell cfg st mint position.tokens
        "Volume drop detected" now
      { fired := some .volumeDrop, sellSucceeded := r.succeeded
        raised := r.raised, state := r.state }
    else
      { fired := none, sellSucceeded := false, raised := none, state := st }

/-- One monitor-loop tick for the position stored under `mint`
(`_monitor_positions` iterates the map and calls `_check_exit_conditions`
on each entry). -/
def TradingStrategy.tick_position (cfg : StrategyConfig) (st : StrategyState)
    (mint : String) (current_price : Option ℚ) (now : ℚ)
    (volume_drop : Option ℚ) : TickOutcome :=
  match alookup mint st.positions with
  | none => { fired := none, sellSucceeded := false, raised := none, state := st }
  | some pos =>
    TradingStrategy.check_exit_conditions cfg st mint pos current_price now volume_drop

/-! ## Theorems -/

/-! ### C1 — live-mode construction gate -/

/-- A live-mode configuration (entry parameters and fees as in the module's
own test config). -/
def liveConfig : TraderConfig :=
  { trading_mode := "live"
    entry_amount_sol := 1/10
    entry_slippage_bps := 2000
    curve := defaultCurve
    paper_initial_balance := 10
    simulated_network_fee := 1/100000
    simulated_priority_fee := 1/2500 }

def paperConfig : TraderConfig :=
  { liveConfig with trading_mode := "paper" }

/-- C1 counterexample: the claim states live-mode construction fails
whenever `LIVE_MODE_CONFIRMED` is absent **or not equal to `"true"`**.
The value `"TRUE"` is not equal to `"true"`, yet construction succeeds:
`_validate_mode` lowercases the environment value before comparing. -/
theorem C1_counterexample :
    ("TRUE" : String) ≠ "true" ∧ isOkE (Trader.init liveConfig (some "TRUE")) = true := by
  constructor
  · decide
  · decide

/-- C1 (amended): constructing the Trader in live mode fails at
construction time — `_validate_mode` raises before the paper engine or any
other trade-capable component is created, which the `Except` short-circuit
mirrors — exactly when the `LIVE_MODE_CONFIRMED` value, lowercased, is not
`"true"` (in particular whenever it is absent); paper mode never consults
the flag and always constructs. -/
theorem C1_trader_live_gate (cfg : TraderConfig) (env : Option String) :
    (cfg.trading_mode = "live" →
      (strLower (env.getD "") ≠ "true" →
        Trader.init cfg env = .error .liveNotConfirmed) ∧
      (strLower (env.getD "") = "true" → isOkE (Trader.init cfg env) = true)) ∧
    (cfg.trading_mode = "paper" → isOkE (Trader.init cfg env) = true) := by
  refine ⟨fun h => ⟨fun henv => ?_, fun henv => ?_⟩, fun h => ?_⟩
  · simp [Trader.init, validateMode, h, henv, isOkE]
  · simp [Trader.init, validateMode, h, henv, isOkE]
  · simp [Trader.init, validateMode, h, isOkE]

theorem C1_trader_live_gate_witness :
    Trader.init liveConfig none = .error .liveNotConfirmed ∧
    isOkE (Trader.init paperConfig none) = true :=
  ⟨((C1_trader_live_gate liveConfig none).1 rfl).1 (by decide),
   (C1_trader_live_gate paperConfig none).2 rfl⟩

/-! ### C10 — zero / negative trade amounts -/

/-- C10 counterexample: the claim states a negative trade amount yields
zero output quantity.  `calculate_tokens_out` has no guard on the sign of
`sol_amount`: buying `-1` SOL on the default curve (with `0` SOL in the
curve) returns `-37000000` tokens, a strictly negative output. -/
theorem C10_counterexample :
    (-1 : ℚ) < 0 ∧
    (defaultCurve.calculate_tokens_out (-1) 0).1 = -37000000 ∧
    ((-37000000 : ℚ) ≠ 0) := by
  refine ⟨by norm_num, ?_, by norm_num⟩
  norm_num [BondingCurve.calculate_tokens_out, BondingCurve.k, defaultCurve]

/-- Unfolding equation for `calculate_tokens_out` (definitional). -/
theorem tokens_out_eq (c : BondingCurve) (x cur : ℚ) :
    c.calculate_tokens_out x cur =
      (c.k / (c.initial_virtual_sol_reserves + cur) -
         c.k / (c.initial_virtual_sol_reserves + cur + x),
       if c.k / (c.initial_virtual_sol_reserves + cur) -
           c.k / (c.initial_virtual_sol_reserves + cur + x) > 0 then
         x / (c.k / (c.initial_virtual_sol_reserves + cur) -
           c.k / (c.initial_virtual_sol_reserves + cur + x))
       else 0) := rfl

/-- Unfolding equation for `calculate_sol_out` (definitional). -/
theorem sol_out_eq (c : BondingCurve) (t cur : ℚ) :
    c.calculate_sol_out t cur =
      (c.initial_virtual_sol_reserves + cur -
         c.k / (c.k / (c.initial_virtual_sol_reserves + cur) + t),
       if t > 0 then
         (c.initial_virtual_sol_reserves + cur -
           c.k / (c.k / (c.initial_virtual_sol_reserves + cur) + t)) / t
       else 0) := rfl

/-- C10 (amended): with positive initial reserves, a **zero** trade amount
yields zero output and zero effective price from both pricing operations;
a strictly **negative** amount yields zero effective price but a strictly
negative (not zero) output quantity, as long as the perturbed reserve stays
positive (beyond that the Python `Decimal` division raises). -/
theorem C10_zero_and_negative_inputs (c : BondingCurve) (cur : ℚ)
    (hS : 0 < c.initial_virtual_sol_reserves)
    (hT : 0 < c.initial_virtual_token_reserves)
    (hcur : 0 ≤ cur) :
    c.calculate_tokens_out 0 cur = (0, 0) ∧
    c.calculate_sol_out 0 cur = (0, 0) ∧
    (∀ x : ℚ, x < 0 → 0 < c.initial_virtual_sol_reserves + cur + x →
      (c.calculate_tokens_out x cur).1 < 0 ∧ (c.calculate_tokens_out x cur).2 = 0) ∧
    (∀ t : ℚ, t < 0 → 0 < c.k / (c.initial_virtual_sol_reserves + cur) + t →
      (c.calculate_sol_out t cur).1 < 0 ∧ (c.calculate_sol_out t cur).2 = 0) := by
  have hvs : 0 < c.initial_virtual_sol_reserves + cur := by linarith
  have hk : 0 < c.k := mul_pos hS hT
  have hvs' : c.initial_virtual_sol_reserves + cur ≠ 0 := ne_of_gt hvs
  have hk' : c.k ≠ 0 := ne_of_gt hk
  have hcancel : c.k / (c.k / (c.initial_virtual_sol_reserves + cur)) =
      c.initial_virtual_sol_reserves + cur := by
    field_simp
  refine ⟨?_, ?_, ?_, ?_⟩
  · rw [tokens_out_eq]
    simp
  · rw [sol_out_eq]
    simp [hcancel]
  · intro x hx hpos
    have hlt : c.k / (c.initial_virtual_sol_reserves + cur) <
        c.k / (c.initial_virtual_sol_reserves + cur + x) := by
      apply div_lt_div_of_pos_left hk hpos
      linarith
    have hneg : (c.calculate_tokens_out x cur).1 < 0 := by
      rw [tokens_out_eq]
      simpa using sub_neg.mpr hlt
    refine ⟨hneg, ?_⟩
    rw [tokens_out_eq] at hneg ⊢
    simp only at hneg ⊢
    rw [if_neg (not_lt.mpr (le_of_lt hneg))]
  · intro t ht hpos
    have hlt : c.k / (c.k / (c.initial_virtual_sol_reserves + cur)) <
        c.k / (c.k / (c.initial_virtual_sol_reserves + cur) + t) := by
      apply div_lt_div_of_pos_left hk hpos
      linarith
    rw [hcancel] at hlt
    refine ⟨?_, ?_⟩
    · rw [sol_out_eq]
      simpa using sub_neg.mpr hlt
    · rw [sol_out_eq]
      simp only
      rw [if_neg (not_lt.mpr (le_of_lt ht))]

theorem C10_zero_and_negative_inputs_witness :
    defaultCurve.calculate_tokens_out 0 0 = (0, 0) ∧
    (defaultCurve.calculate_tokens_out (-1) 0).1 < 0 ∧
    (defaultCurve.calculate_sol_out (-1) 0).1 < 0 := by
  have h := C10_zero_and_negative_inputs defaultCurve 0
    (by norm_num [defaultCurve]) (by norm_num [defaultCurve]) le_rfl
  refine ⟨h.1, (h.2.2.1 (-1) (by norm_num) (by norm_num [defaultCurve])).1,
    (h.2.2.2 (-1) (by norm_num) ?_).1⟩
  norm_num [defaultCurve, BondingCurve.k]

/-! ### C9 — missing required field short-circuits the pipeline -/

/-- C9: if the record is missing a required field (`fld` being the first
missing one in the fixed required-field order), `run_all_filters` returns
`false` together with exactly one verdict, failed, whose reason names that
field — and the result is independent of the filter configuration, so no
individual filter check influences it. -/
theorem C9_run_all_filters_missing_field (f g : TokenFilters) (t : TokenData)
    (fld : String) (h : firstMissingField t = some fld) :
    f.run_all_filters t =
      (false, [{ passed := false, reason := some ("Missing field: " ++ fld) }]) ∧
    f.run_all_filters t = g.run_all_filters t := by
  constructor <;> simp only [TokenFilters.run_all_filters, h]

/-- A record whose `name` key is absent (every earlier required field
present). -/
def tokenMissingName : TokenData :=
  { first_buy_sol := some 1
    mint_authority := some none
    sell_tax_percent := some 5
    simulation_success := some true
    name := none
    symbol := some "GOOD"
    sol_in_curve := some 5
    top_10_holders_pct := none
    dev_hold_pct := none }

def defaultFilters : TokenFilters :=
  { min_first_buy_sol := 1/2
    require_mint_renounced := true
    max_sell_tax_percent := 15
    require_sell_simulation := true
    min_liquidity_sol := 1
    banned_keywords := ["test", "rug"] }

theorem C9_run_all_filters_missing_field_witness :
    firstMissingField tokenMissingName = some "name" ∧
    defaultFilters.run_all_filters tokenMissingName =
      (false, [{ passed := false, reason := some "Missing field: name" }]) :=
  ⟨rfl, (C9_run_all_filters_missing_field defaultFilters defaultFilters
    tokenMissingName "name" rfl).1⟩

/-! ### C8 — detector dedup-and-dispatch -/

/-- Fold invariant for `_process_token` over a report sequence, from an
arbitrary starting state: the callback count for an id grows by one exactly
when the id is fresh and reported; the seen-set afterwards is the union of
the prior seen-set and the reported mints; and the seen-set only grows. -/
theorem processAll_spec (reports : List TokenReport) :
    ∀ (s : DetectorState) (id : String),
    (((processAll s reports).callback_log.map (fun r => r.mint)).count id =
      (s.callback_log.map (fun r => r.mint)).count id +
        (if id ∈ s.seen_tokens then 0
         else if id ∈ reports.map (fun r => r.mint) then 1 else 0)) ∧
    (id ∈ (processAll s reports).seen_tokens ↔
      id ∈ s.seen_tokens ∨ id ∈ reports.map (fun r => r.mint)) ∧
    (∀ x, x ∈ s.seen_tokens → x ∈ (processAll s reports).seen_tokens) := by
  induction reports with
  | nil =>
    intro s id
    simp [processAll]
  | cons r rest ih =>
    intro s id
    have hfold : processAll s (r :: rest) = processAll (processToken s r) rest := by
      simp [processAll]
    by_cases hseen : r.mint ∈ s.seen_tokens
    · have hstep : processToken s r = s := by
        simp [processToken, hseen]
      rw [hfold, hstep]
      obtain ⟨hc, hm, hsub⟩ := ih s id
      refine ⟨?_, ?_, hsub⟩
      · rw [hc]
        by_cases hid : id ∈ s.seen_tokens
        · simp [hid]
        · have hne : id ≠ r.mint := fun he => hid (he ▸ hseen)
          simp [hid, hne]
      · rw [hm]
        constructor
        · rintro (h | h)
          · exact Or.inl h
          · exact Or.inr (List.mem_cons_of_mem _ h)
        · rintro (h | h)
          · exact Or.inl h
          · rcases List.mem_cons.mp h with h' | h'
            · exact Or.inl (h' ▸ hseen)
            · exact Or.inr h'
    · have hstep : processToken s r =
          ⟨r.mint :: s.seen_tokens, s.callback_log ++ [r]⟩ := by
        simp [processToken, hseen]
      rw [hfold, hstep]
      obtain ⟨hc, hm, hsub⟩ := ih ⟨r.mint :: s.seen_tokens, s.callback_log ++ [r]⟩ id
      refine ⟨?_, ?_, ?_⟩
      · rw [hc]
        by_cases hid : id = r.mint
        · subst hid
          simp [hseen, List.count_append, List.count_cons, List.count_nil,
            List.map_append]
        · by_cases hid2 : id ∈ s.seen_tokens
          · simp [hid, hid2, List.count_append, List.count_cons, List.count_nil,
              List.map_append]
          · simp [hid, hid2, List.count_append, List.count_cons, List.count_nil,
              List.map_append]
      · rw [hm]
        simp only [List.mem_cons, List.map_cons]
        tauto
      · intro x hx
        exact hsub x (List.mem_cons_of_mem _ hx)

/-- C8: starting from a fresh detector, for every candidate id and every
report sequence (from either source), the callback fires exactly once when
the id is reported at all (the first report dispatches, every later report
of the same id is dropped); the id is in the seen-set afterwards iff it was
reported; and an id in the seen-set survives any further report sequence
(the seen-set only grows). -/
theorem C8_detector_dedup (reports : List TokenReport) (id : String) :
    (((processAll initialDetector reports).callback_log.map (fun r => r.mint)).count id =
      if id ∈ reports.map (fun r => r.mint) then 1 else 0) ∧
    (id ∈ (processAll initialDetector reports).seen_tokens ↔
      id ∈ reports.map (fun r => r.mint)) ∧
    (∀ (s : DetectorState) (rs : List TokenReport) (x : String),
      x ∈ s.seen_tokens → x ∈ (processAll s rs).seen_tokens) := by
  obtain ⟨hc, hm, _⟩ := processAll_spec reports initialDetector id
  refine ⟨?_, ?_, ?_⟩
  · rw [hc]
    simp [initialDetector]
  · rw [hm]
    simp [initialDetector]
  · intro s rs x hx
    exact (processAll_spec rs s x).2.2 x hx

/-- The same candidate id reported once by the webhook source and once by
the poller within one cycle. -/
def dualSourceReports : List TokenReport :=
  [{ mint := "MINTA", source := "helius_webhook" },
   { mint := "MINTA", source := "dexscreener" }]

theorem C8_detector_dedup_witness :
    (((processAll initialDetector dualSourceReports).callback_log.map
        (fun r => r.mint)).count "MINTA" = 1) ∧
    "MINTB" ∈ (processAll ⟨["MINTB"], []⟩ dualSourceReports).seen_tokens := by
  constructor
  · rw [(C8_detector_dedup dualSourceReports "MINTA").1]
    decide
  · exact (C8_detector_dedup dualSourceReports "MINTA").2.2
      ⟨["MINTB"], []⟩ dualSourceReports "MINTB" (by decide)

/-! ### C2 / C4 — ledger bookkeeping -/

/-- The invariant of the claim: non-negative balance and non-negative
stored position quantities. -/
def EngineInv (e : PaperEngine) : Prop :=
  0 ≤ e.balance_sol ∧ ∀ p ∈ e.positions, 0 ≤ p.2.tokens

/-- Inversion of a successful `execute_buy`: the balance check passed and
the new state is fully determined. -/
theorem execute_buy_ok_elim {e : PaperEngine} {mint : String}
    {sol_amount tokens_received price now : ℚ} {r : BuyResult} {e' : PaperEngine}
    (h : e.execute_buy mint sol_amount tokens_received price now = .ok (r, e')) :
    sol_amount + (e.simulated_network_fee + e.simulated_priority_fee) ≤ e.balance_sol ∧
    e' = { e with
      balance_sol := e.balance_sol -
        (sol_amount + (e.simulated_network_fee + e.simulated_priority_fee))
      positions := ainsert mint
        { entry_time := now, entry_price := price, tokens := tokens_received,
          sol_invested := sol_amount,
          fees_paid := e.simulated_network_fee + e.simulated_priority_fee }
        e.positions
      trades := e.trades ++
        [{ trade_type := "buy", mint := mint, sol_amount := sol_amount,
           tokens_amount := tokens_received, price := price, profit_sol := 0,
           profit_pct := 0, reason := "", timestamp := now }] } := by
  simp only [PaperEngine.execute_buy] at h
  split at h
  · cases h
  · rename_i hcond
    simp only [Except.ok.injEq, Prod.mk.injEq] at h
    exact ⟨not_lt.mp hcond, h.2.symm⟩

/-- Inversion of a successful `execute_sell`: a position existed, the
quantity check passed, and the new balance/positions are determined. -/
theorem execute_sell_ok_elim {e : PaperEngine} {mint : String}
    {tokens_sold sol_received price now : ℚ} {reason : String}
    {r : SellResult} {e' : PaperEngine}
    (h : e.execute_sell mint tokens_sold sol_received price reason now = .ok (r, e')) :
    ∃ position, alookup mint e.positions = some position ∧
      tokens_sold ≤ position.tokens ∧
      e'.balance_sol = e.balance_sol +
        (sol_received - (e.simulated_network_fee + e.simulated_priority_fee)) ∧
      e'.simulated_network_fee = e.simulated_network_fee ∧
      e'.simulated_priority_fee = e.simulated_priority_fee ∧
      e'.positions =
        (if tokens_sold ≥ position.tokens then aremove mint e.positions
         else ainsert mint
           { position with
             tokens := position.tokens - tokens_sold
             sol_invested := position.sol_invested -
               position.sol_invested * (tokens_sold / position.tokens) }
           e.positions) := by
  simp only [PaperEngine.execute_sell] at h
  cases hlook : alookup mint e.positions with
  | none =>
    rw [hlook] at h
    cases h
  | some position =>
    rw [hlook] at h
    simp only at h
    split at h
    · cases h
    · rename_i hcond
      simp only [Except.ok.injEq, Prod.mk.injEq] at h
      refine ⟨position, rfl, not_lt.mp hcond, ?_, ?_, ?_, ?_⟩ <;>
        rw [← h.2]

/-- The per-operation hypotheses the counterexample below shows to be
necessary: a buy records a non-negative quantity, and a sell's proceeds
cover the fixed fees. -/
def OpAssum (nf pf : ℚ) : LedgerOp → Prop
  | .buy _ _ tokens_received _ _ => 0 ≤ tokens_received
  | .sell _ _ sol_received _ _ _ => nf + pf ≤ sol_received

theorem applyOp_inv {e e' : PaperEngine} {op : LedgerOp}
    (h : e.applyOp op = .ok e') (hinv : EngineInv e)
    (ha : OpAssum e.simulated_network_fee e.simulated_priority_fee op) :
    EngineInv e' ∧
    e'.simulated_network_fee = e.simulated_network_fee ∧
    e'.simulated_priority_fee = e.simulated_priority_fee := by
  cases op with
  | buy mint sol_amount tokens_received price now =>
    simp only [PaperEngine.applyOp] at h
    cases hx : e.execute_buy mint sol_amount tokens_received price now with
    | error err => rw [hx] at h; cases h
    | ok pr =>
      rw [hx] at h
      simp only [Except.map, Except.ok.injEq] at h
      obtain ⟨hle, he⟩ := execute_buy_ok_elim (show _ = Except.ok (pr.1, pr.2) from hx)
      rw [← h, he]
      refine ⟨⟨by simp; linarith [hinv.1], ?_⟩, rfl, rfl⟩
      intro p hp
      simp only at hp
      rcases mem_ainsert hp with hq | hq
      · rw [hq]
        exact ha
      · exact hinv.2 p hq
  | sell mint tokens_sold sol_received price reason now =>
    simp only [PaperEngine.applyOp] at h
    cases hx : e.execute_sell mint tokens_sold sol_received price reason now with
    | error err => rw [hx] at h; cases h
    | ok pr =>
      rw [hx] at h
      simp only [Except.map, Except.ok.injEq] at h
      obtain ⟨pos, hlook, hle, hbal, hnf, hpf, hpos⟩ :=
        execute_sell_ok_elim (show _ = Except.ok (pr.1, pr.2) from hx)
      rw [← h]
      refine ⟨⟨?_, ?_⟩, hnf, hpf⟩
      · rw [hbal]
        have := hinv.1
        simp only [OpAssum] at ha
        linarith
      · intro p hp
        rw [hpos] at hp
        split at hp
        · exact hinv.2 p (mem_aremove hp)
        · rename_i hlt
          rcases mem_ainsert hp with hq | hq
          · rw [hq]
            have := not_le.mp hlt
            simp only
            linarith
          · exact hinv.2 p hq

/-- C2 (amended): starting from a state satisfying the invariant, every
sequence of ledger operations — where each buy records a non-negative
quantity and each sell's gross proceeds are at least the fixed fees —
keeps the balance and all stored position quantities non-negative.
Operations whose validation fails leave the state unchanged (in the Python
the check runs before any mutation), so this covers every intermediate
state: instantiate `ops` with any prefix.  The fee hypothesis is forced by
`C2_counterexample`, which shows a validated sell driving the balance
negative without it. -/
theorem C2_ledger_invariant (ops : List LedgerOp) : ∀ (e : PaperEngine),
    EngineInv e →
    (∀ op ∈ ops, OpAssum e.simulated_network_fee e.simulated_priority_fee op) →
    EngineInv (runOps e ops) := by
  induction ops with
  | nil =>
    intro e hinv _
    exact hinv
  | cons op rest ih =>
    intro e hinv hops
    cases hx : e.applyOp op with
    | error err =>
      simp only [runOps, hx]
      exact ih e hinv (fun o ho => hops o (List.mem_cons_of_mem _ ho))
    | ok e' =>
      simp only [runOps, hx]
      obtain ⟨hinv', hnf, hpf⟩ := applyOp_inv hx hinv (hops op (List.mem_cons_self _ _))
      refine ih e' hinv' (fun o ho => ?_)
      rw [hnf, hpf]
      exact hops o (List.mem_cons_of_mem _ ho)

/-- A fresh paper engine with the default fee configuration. -/
def cexEngine : PaperEngine :=
  { balance_sol := 10
    simulated_network_fee := 1/100000
    simulated_priority_fee := 1/2500
    positions := []
    trades := [] }

/-- A buy spending the whole balance net of fees, followed by a sell whose
gross proceeds are zero. -/
def cexBuy : LedgerOp := .buy "MINT" (999959/100000) 100 1 0

def cexSell : LedgerOp := .sell "MINT" 50 0 1 "stop loss" 1

/-- C2 counterexample: both operations validate (no
InsufficientBalance/NoPosition/InsufficientTokens), the initial balance is
non-negative, yet after the sell the balance is negative: `execute_sell`
credits `sol_received - fees`, which is negative when the proceeds do not
cover the fixed fees. -/
theorem C2_counterexample :
    (0 : ℚ) ≤ cexEngine.balance_sol ∧
    isOkE (cexEngine.applyOp cexBuy) = true ∧
    isOkE ((runOps cexEngine [cexBuy]).applyOp cexSell) = true ∧
    (runOps cexEngine [cexBuy, cexSell]).balance_sol < 0 := by
  refine ⟨by norm_num [cexEngine], ?_, ?_, ?_⟩ <;>
    norm_num [runOps, PaperEngine.applyOp, PaperEngine.execute_buy,
      PaperEngine.execute_sell, cexEngine, cexBuy, cexSell, alookup, ainsert,
      aremove, isOkE, Except.map]

theorem C2_ledger_invariant_witness : EngineInv (runOps cexEngine [cexBuy]) := by
  refine C2_ledger_invariant [cexBuy] cexEngine ⟨by norm_num [cexEngine], ?_⟩ ?_
  · intro p hp
    simp [cexEngine] at hp
  · intro op hop
    rcases List.mem_singleton.mp hop with rfl
    norm_num [cexBuy, OpAssum]

/-- C4 counterexample: two validated buys for the same mint; after the
second the stored quantity is the second buy's quantity (50), not the
accumulated 150, and the invested amount is the second buy's amount, not
the sum — `execute_buy` overwrites the position. -/
def c4BuyA : LedgerOp := .buy "MINT" 1 100 1 0

def c4BuyB : LedgerOp := .buy "MINT" 1 50 1 0

theorem C4_counterexample :
    isOkE (cexEngine.applyOp c4BuyA) = true ∧
    isOkE ((runOps cexEngine [c4BuyA]).applyOp c4BuyB) = true ∧
    ((runOps cexEngine [c4BuyA, c4BuyB]).get_position "MINT").map
        (fun p => (p.tokens, p.sol_invested)) = some (50, 1) ∧
    ((50 : ℚ), (1 : ℚ)) ≠ ((100 + 50 : ℚ), (1 + 1 : ℚ)) := by
  refine ⟨?_, ?_, ?_, by norm_num⟩ <;>
    norm_num [runOps, PaperEngine.applyOp, PaperEngine.execute_buy,
      PaperEngine.get_position, cexEngine, c4BuyA, c4BuyB, alookup, ainsert,
      isOkE, Except.map]

/-- C4 (amended): a validated `execute_buy` stores, for the bought mint,
exactly the position described by this buy — quantity `tokens_received`,
invested `sol_amount` — replacing any previously stored position for that
mint rather than accumulating into it. -/
theorem C4_buy_replaces_position {e : PaperEngine} {mint : String}
    {sol_amount tokens_received price now : ℚ} {r : BuyResult} {e' : PaperEngine}
    (h : e.execute_buy mint sol_amount tokens_received price now = .ok (r, e')) :
    e'.get_position mint = some
      { entry_time := now, entry_price := price, tokens := tokens_received,
        sol_invested := sol_amount,
        fees_paid := e.simulated_network_fee + e.simulated_priority_fee } := by
  obtain ⟨-, he⟩ := execute_buy_ok_elim h
  rw [he]
  simp only [PaperEngine.get_position]
  exact alookup_ainsert_self _ _ _

theorem C4_buy_replaces_position_witness :
    (cexEngine.execute_buy "MINT" 1 100 1 0).map (fun pr => pr.2.get_position "MINT") =
      .ok (some { entry_time := 0, entry_price := 1, tokens := 100,
                  sol_invested := 1, fees_paid := 1/100000 + 1/2500 }) := by
  cases hx : cexEngine.execute_buy "MINT" 1 100 1 0 with
  | error err =>
    exfalso
    norm_num [PaperEngine.execute_buy, cexEngine] at hx
    exact Except.noConfusion hx
  | ok pr =>
    have hmain := C4_buy_replaces_position (show _ = Except.ok (pr.1, pr.2) from hx)
    simp only [Except.map, hmain]
    norm_num [cexEngine]

/-! ### C3 — instantaneous round trip loses money -/

/-- Core algebraic fact behind the round trip: with constant product `k`,
buying with `x` quote from virtual quote reserve `vs` and selling the
received units back at the same curve state returns `vs·x/(vs+2x) < x`. -/
theorem roundtrip_core (k vs x : ℚ) (hk : 0 < k) (hvs : 0 < vs) (hx : 0 < x) :
    vs - k / (k / vs + (k / vs - k / (vs + x))) < x := by
  have hvsx : 0 < vs + x := by linarith
  have h2x : 0 < vs + 2 * x := by linarith
  have hne1 : vs ≠ 0 := ne_of_gt hvs
  have hne2 : vs + x ≠ 0 := ne_of_gt hvsx
  have hne3 : vs + 2 * x ≠ 0 := ne_of_gt h2x
  have hkne : k ≠ 0 := ne_of_gt hk
  have key1 : k / vs + (k / vs - k / (vs + x)) = k * (vs + 2 * x) / (vs * (vs + x)) := by
    field_simp
    ring
  rw [key1]
  have hprod : vs * (vs + x) ≠ 0 := mul_ne_zero hne1 hne2
  have hnum : k * (vs + 2 * x) ≠ 0 := mul_ne_zero hkne hne3
  have key2 : k / (k * (vs + 2 * x) / (vs * (vs + x))) = vs * (vs + x) / (vs + 2 * x) := by
    field_simp
    ring
  rw [key2]
  have key3 : vs - vs * (vs + x) / (vs + 2 * x) = vs * x / (vs + 2 * x) := by
    field_simp
    ring
  rw [key3, div_lt_iff₀ h2x]
  nlinarith [mul_pos hx hx]

/-- C3: for every curve with positive initial reserves, every non-negative
quote currently in the curve, and every `quote_in > 0`, buying `quote_in`
via `calculate_tokens_out` and immediately selling the resulting units back
via `calculate_sol_out` yields strictly less than `quote_in`. -/
theorem C3_roundtrip_loss (c : BondingCurve) (x cur : ℚ)
    (hS : 0 < c.initial_virtual_sol_reserves)
    (hT : 0 < c.initial_virtual_token_reserves)
    (hcur : 0 ≤ cur) (hx : 0 < x) :
    (c.calculate_sol_out (c.calculate_tokens_out x cur).1 cur).1 < x := by
  have hvs : 0 < c.initial_virtual_sol_reserves + cur := by linarith
  have hk : 0 < c.k := mul_pos hS hT
  have hout : (c.calculate_tokens_out x cur).1 =
      c.k / (c.initial_virtual_sol_reserves + cur) -
        c.k / (c.initial_virtual_sol_reserves + cur + x) := by
    rw [tokens_out_eq]
  rw [hout]
  have hsol : (c.calculate_sol_out
      (c.k / (c.initial_virtual_sol_reserves + cur) -
        c.k / (c.initial_virtual_sol_reserves + cur + x)) cur).1 =
      c.initial_virtual_sol_reserves + cur -
        c.k / (c.k / (c.initial_virtual_sol_reserves + cur) +
          (c.k / (c.initial_virtual_sol_reserves + cur) -
            c.k / (c.initial_virtual_sol_reserves + cur + x))) := by
    rw [sol_out_eq]
  rw [hsol]
  exact roundtrip_core c.k (c.initial_virtual_sol_reserves + cur) x hk hvs hx

theorem C3_roundtrip_loss_witness :
    (defaultCurve.calculate_sol_out (defaultCurve.calculate_tokens_out 1 0).1 0).1 < 1 :=
  C3_roundtrip_loss defaultCurve 1 0 (by norm_num [defaultCurve])
    (by norm_num [defaultCurve]) le_rfl one_pos

/-! ### C5 — partial take-profit and the monitored position map -/

/-- Inversion of a successful paper sell through the trader: some
`execute_sell` call succeeded with exactly this result state. -/
theorem sell_paper_success_elim {cfg : StrategyConfig} {eng : PaperEngine}
    {mint : String} {amount : ℚ} {reason : String} {now : ℚ}
    {r : SellResult} {eng' : PaperEngine}
    (h : Trader.sell_paper cfg eng mint amount reason now = .success r eng') :
    ∃ sol_rec price,
      eng.execute_sell mint amount sol_rec price reason now = .ok (r, eng') := by
  simp only [Trader.sell_paper, PaperEngine.get_position] at h
  cases hlook : alookup mint eng.positions with
  | none =>
    rw [hlook] at h
    cases h
  | some pos =>
    rw [hlook] at h
    simp only at h
    cases hex : eng.execute_sell mint amount
        (cfg.curve.simulate_sell_with_slippage amount mock_sol_in_curve
          cfg.entry_slippage_bps).sol_out_with_slippage
        (cfg.curve.simulate_sell_with_slippage amount mock_sol_in_curve
          cfg.entry_slippage_bps).effective_price reason now with
    | error err =>
      rw [hex] at h
      cases h
    | ok pr =>
      rw [hex] at h
      obtain ⟨a, b⟩ := pr
      simp only [TraderSellOutcome.success.injEq] at h
      exact ⟨_, _, by rw [hex, h.1, h.2]⟩

/-- C5 (amended): whenever a strategy-initiated sell succeeds — for any
fraction of the position — `_execute_sell` deletes the mint from the
strategy's monitored position map, so the position is no longer monitored
on later ticks; the Ledger, in contrast, keeps a position shrunk by the
sold amount whenever the sold amount is strictly below the stored quantity
(it removes the ledger position only on a full sell). -/
theorem C5_successful_sell_stops_monitoring (cfg : StrategyConfig)
    (st : StrategyState) (mint : String) (amount : ℚ) (reason : String) (now : ℚ)
    (h : (TradingStrategy.strategy_sell cfg st mint amount reason now).succeeded = true) :
    alookup mint
      (TradingStrategy.strategy_sell cfg st mint amount reason now).state.positions = none ∧
    (∀ pos, alookup mint st.engine.positions = some pos → amount < pos.tokens →
      alookup mint
        (TradingStrategy.strategy_sell cfg st mint amount reason now).state.engine.positions =
        some { pos with
               tokens := pos.tokens - amount
               sol_invested := pos.sol_invested -
                 pos.sol_invested * (amount / pos.tokens) }) := by
  simp only [TradingStrategy.strategy_sell] at h ⊢
  cases hsp : Trader.sell_paper cfg st.engine mint amount reason now with
  | failure =>
    rw [hsp] at h
    cases h
  | raised err =>
    rw [hsp] at h
    cases h
  | success r eng' =>
    simp only [hsp]
    refine ⟨alookup_aremove_self _ _, ?_⟩
    intro pos hlook hlt
    obtain ⟨sol_rec, price, hex⟩ := sell_paper_success_elim hsp
    obtain ⟨pos2, hlook2, hle2, hbal2, hnf2, hpf2, hpos2⟩ := execute_sell_ok_elim hex
    rw [hlook] at hlook2
    obtain rfl : pos2 = pos := (Option.some.injEq _ _).mp hlook2.symm
    rw [hpos2, if_neg (not_le.mpr hlt)]
    exact alookup_ainsert_self _ _ _

/-- Take-profit configuration selling 50% (< 100%) of the position at +50%
(the module docstring's own numbers). -/
def c5cfg : StrategyConfig :=
  { take_profit_pct := 50
    take_profit_target := 50
    trailing_stop_enabled := true
    trailing_stop_activation := 100
    trailing_stop_pct := 15
    max_hold_time_min := 90
    volume_drop_threshold := 80
    entry_amount_sol := 1/10
    entry_slippage_bps := 2000
    curve := defaultCurve }

def c5engine : PaperEngine :=
  { balance_sol := 10
    simulated_network_fee := 1/100000
    simulated_priority_fee := 1/2500
    positions := [("MINT", { entry_time := 0, entry_price := 1, tokens := 100,
                             sol_invested := 10, fees_paid := 41/100000 })]
    trades := [] }

def c5st : StrategyState :=
  { positions := [("MINT", { entry_time := 0, entry_price := 1, tokens := 100,
                             sol_invested := 10, peak_price := 1 })]
    engine := c5engine }

/-- C5 counterexample: the claim states that after a take-profit sell of a
fraction `< 100%` the Position remains and continues to be monitored.  On a
tick at +100% gain, take-profit fires, the sell of half the position
succeeds, the Ledger keeps the shrunk position (50 of 100 units) — yet the
strategy deletes the mint from its monitored map, so nothing is monitored
afterwards. -/
theorem C5_counterexample :
    c5cfg.take_profit_pct < 100 ∧
    (TradingStrategy.tick_position c5cfg c5st "MINT" (some 2) 60 none).fired =
      some .takeProfit ∧
    (TradingStrategy.tick_position c5cfg c5st "MINT" (some 2) 60 none).sellSucceeded = true ∧
    (TradingStrategy.tick_position c5cfg c5st "MINT" (some 2) 60 none).state.engine.get_position
        "MINT" = some { entry_time := 0, entry_price := 1, tokens := 50,
                        sol_invested := 5, fees_paid := 41/100000 } ∧
    alookup "MINT"
      (TradingStrategy.tick_position c5cfg c5st "MINT" (some 2) 60 none).state.positions =
      none := by
  refine ⟨by norm_num [c5cfg], ?_, ?_, ?_, ?_⟩ <;>
    norm_num [TradingStrategy.tick_position, TradingStrategy.check_exit_conditions,
      TradingStrategy.strategy_sell, Trader.sell_paper, PaperEngine.get_position,
      PaperEngine.execute_sell, BondingCurve.simulate_sell_with_slippage,
      BondingCurve.calculate_sol_out, BondingCurve.k, mock_sol_in_curve,
      c5cfg, c5st, c5engine, defaultCurve, alookup, ainsert, aremove]

theorem C5_successful_sell_stops_monitoring_witness :
    alookup "MINT"
      (TradingStrategy.strategy_sell c5cfg c5st "MINT" 50 "Take profit" 60).state.positions =
      none ∧
    alookup "MINT"
      (TradingStrategy.strategy_sell c5cfg c5st "MINT" 50 "Take profit" 60).state.engine.positions =
      some { entry_time := 0, entry_price := 1, tokens := 50,
             sol_invested := 5, fees_paid := 41/100000 } := by
  have hsucc : (TradingStrategy.strategy_sell c5cfg c5st "MINT" 50 "Take profit" 60).succeeded = true := by
    norm_num [TradingStrategy.strategy_sell, Trader.sell_paper,
      PaperEngine.get_position, PaperEngine.execute_sell,
      BondingCurve.simulate_sell_with_slippage, BondingCurve.calculate_sol_out,
      BondingCurve.k, mock_sol_in_curve, c5cfg, c5st, c5engine, defaultCurve,
      alookup, ainsert, aremove]
  have hmain := C5_successful_sell_stops_monitoring c5cfg c5st "MINT" 50 "Take profit" 60 hsucc
  refine ⟨hmain.1, ?_⟩
  have hledger := hmain.2
    { entry_time := 0, entry_price := 1, tokens := 100, sol_invested := 10,
      fees_paid := 41/100000 }
    (by norm_num [c5st, c5engine, alookup]) (by norm_num)
  rw [hledger]
  norm_num

/-! ### C6 — trailing stop gating is current-gain based, not latched -/

/-- A configuration whose take-profit target (1000%) is out of reach, so
the trailing stop is observable in isolation. -/
def c6cfg : StrategyConfig :=
  { c5cfg with take_profit_target := 1000 }

/-- State after a first tick at price 3 (gain +200%, above the 100%
activation threshold): nothing fires and the tracked peak is raised to 3. -/
def c6st1 : StrategyState :=
  (TradingStrategy.tick_position c6cfg c5st "MINT" (some 3) 60 none).state

/-- C6 counterexample: the gain exceeded the activation threshold on an
earlier tick (tick 1: +200% > 100%), the price then retraced (to +50%)
beyond the configured 15% from the tracked peak 3 — under the claim's
latched reading the trailing stop must be evaluated and fire a full exit —
yet the code skips the trailing stop entirely because the *current* gain
(50%) is below the activation threshold: nothing fires and the position
stays. -/
theorem C6_counterexample :
    ((3 - 1 : ℚ) / 1 * 100 > c6cfg.trailing_stop_activation) ∧
    (TradingStrategy.tick_position c6cfg c5st "MINT" (some 3) 60 none).fired = none ∧
    alookup "MINT" c6st1.positions =
      some { entry_time := 0, entry_price := 1, tokens := 100,
             sol_invested := 10, peak_price := 3 } ∧
    ((3 : ℚ) / 2 ≤ 3 * (1 - c6cfg.trailing_stop_pct / 100)) ∧
    (TradingStrategy.tick_position c6cfg c6st1 "MINT" (some (3/2)) 120 none).fired = none ∧
    alookup "MINT"
      (TradingStrategy.tick_position c6cfg c6st1 "MINT" (some (3/2)) 120 none).state.positions =
      some { entry_time := 0, entry_price := 1, tokens := 100,
             sol_invested := 10, peak_price := 3 } := by
  refine ⟨by norm_num [c6cfg, c5cfg], ?_, ?_, by norm_num [c6cfg, c5cfg], ?_, ?_⟩ <;>
    norm_num [c6st1, TradingStrategy.tick_position, TradingStrategy.check_exit_conditions,
      c6cfg, c5cfg, c5st, c5engine, alookup, ainsert]

/-- C6 (amended): on any tick, the trailing stop is considered exactly when
trailing is enabled and the **current** tick's gain exceeds the activation
threshold (the gate is re-evaluated from the current price each tick, with
no memory of earlier gains); when considered, it fires — as a full exit —
exactly when the current price is at or below the peak price (updated this
tick to `max` of prior peak and current price) times `1 - percent/100`,
provided take-profit did not already fire. -/
theorem C6_trailing_stop_characterization (cfg : StrategyConfig)
    (st : StrategyState) (mint : String) (pos : StrategyPosition)
    (cp now : ℚ) (vd : Option ℚ)
    (hlook : alookup mint st.positions = some pos) :
    (TradingStrategy.tick_position cfg st mint (some cp) now vd).fired =
        some .trailingStop ↔
      ¬((cp - pos.entry_price) / pos.entry_price * 100 ≥ cfg.take_profit_target) ∧
      cfg.trailing_stop_enabled = true ∧
      (cp - pos.entry_price) / pos.entry_price * 100 > cfg.trailing_stop_activation ∧
      cp ≤ max pos.peak_price cp * (1 - cfg.trailing_stop_pct / 100) := by
  have hmax : (if cp > pos.peak_price then { pos with peak_price := cp } else pos) =
      { pos with peak_price := max pos.peak_price cp } := by
    split
    · rename_i h
      rw [max_eq_right (le_of_lt h)]
    · rename_i h
      rw [max_eq_left (not_lt.mp h)]
  simp only [TradingStrategy.tick_position, hlook]
  simp only [TradingStrategy.check_exit_conditions, hmax]
  by_cases h1 : (cp - pos.entry_price) / pos.entry_price * 100 ≥ cfg.take_profit_target
  · simp [h1]
  · by_cases h2 : cfg.trailing_stop_enabled = true ∧
        (cp - pos.entry_price) / pos.entry_price * 100 > cfg.trailing_stop_activation ∧
        cp ≤ max pos.peak_price cp * (1 - cfg.trailing_stop_pct / 100)
    · simp [h1, h2]
    · simp only [if_neg h1]
      rw [if_neg (by simpa using h2)]
      split

      · simp [h1, h2]
      · split
        · simp [h1, h2]
        · simp [h1, h2]

/-- Strategy state whose tracked peak (4) is well above the current price. -/
def c6stW : StrategyState :=
  { positions := [("MINT", { entry_time := 0, entry_price := 1, tokens := 100,
                             sol_invested := 10, peak_price := 4 })]
    engine := c5engine }

theorem C6_trailing_stop_characterization_witness :
    (TradingStrategy.tick_position c6cfg c6stW "MINT" (some (5/2)) 60 none).fired =
      some .trailingStop := by
  refine (C6_trailing_stop_characterization c6cfg c6stW "MINT"
    { entry_time := 0, entry_price := 1, tokens := 100, sol_invested := 10,
      peak_price := 4 } (5/2) 60 none (by norm_num [c6stW, alookup])).mpr ?_
  refine ⟨by norm_num [c6cfg, c5cfg], rfl, by norm_num [c6cfg, c5cfg], ?_⟩
  norm_num [c6cfg, c5cfg, max_def]

/-! ### C7 — exit conditions: order, peak update, at most one action -/

/-- A successful `execute_sell` appends exactly one trade record. -/
theorem execute_sell_ok_trades {e : PaperEngine} {mint : String}
    {tokens_sold sol_received price now : ℚ} {reason : String}
    {r : SellResult} {e' : PaperEngine}
    (h : e.execute_sell mint tokens_sold sol_received price reason now = .ok (r, e')) :
    e'.trades.length = e.trades.length + 1 := by
  simp only [PaperEngine.execute_sell] at h
  cases hlook : alookup mint e.positions with
  | none =>
    rw [hlook] at h
    cases h
  | some position =>
    rw [hlook] at h
    simp only at h
    split at h
    · cases h
    · simp only [Except.ok.injEq, Prod.mk.injEq] at h
      rw [← h.2]
      simp

/-- A strategy-initiated sell grows the trade log by at most one record
(exactly one on success, none on failure). -/
theorem strategy_sell_trades_le (cfg : StrategyConfig) (st : StrategyState)
    (mint : String) (amount : ℚ) (reason : String) (now : ℚ) :
    (TradingStrategy.strategy_sell cfg st mint amount reason now).state.engine.trades.length ≤
      st.engine.trades.length + 1 := by
  simp only [TradingStrategy.strategy_sell]
  cases hsp : Trader.sell_paper cfg st.engine mint amount reason now with
  | failure => simp
  | raised err => simp
  | success r eng' =>
    simp only
    obtain ⟨sol_rec, price, hex⟩ := sell_paper_success_elim hsp
    exact le_of_eq (execute_sell_ok_trades hex)

/-- C7: on a monitoring tick with a known current price, (i) when nothing
fires, the stored position's peak has been updated to the max of its prior
value and the current price — the update happens before the checks; (ii)
take-profit is evaluated first and fires whenever its threshold holds,
regardless of the other conditions (in particular when the trailing-stop
condition holds simultaneously); (iii) the trailing stop — consulting the
tick-updated peak — fires exactly as second in line; (iv) max-hold is
third; (v) volume-collapse is last; (vi) at most one sell is performed per
tick (the trade log grows by at most one record). -/
theorem C7_exit_evaluation_order (cfg : StrategyConfig) (st : StrategyState)
    (mint : String) (pos : StrategyPosition) (cp now : ℚ) (vd : Option ℚ)
    (hlook : alookup mint st.positions = some pos) :
    ((TradingStrategy.tick_position cfg st mint (some cp) now vd).fired = none →
      alookup mint
        (TradingStrategy.tick_position cfg st mint (some cp) now vd).state.positions =
        some { pos with peak_price := max pos.peak_price cp }) ∧
    ((cp - pos.entry_price) / pos.entry_price * 100 ≥ cfg.take_profit_target →
      (TradingStrategy.tick_position cfg st mint (some cp) now vd).fired =
        some .takeProfit) ∧
    (¬((cp - pos.entry_price) / pos.entry_price * 100 ≥ cfg.take_profit_target) →
      cfg.trailing_stop_enabled = true →
      (cp - pos.entry_price) / pos.entry_price * 100 > cfg.trailing_stop_activation →
      cp ≤ max pos.peak_price cp * (1 - cfg.trailing_stop_pct / 100) →
      (TradingStrategy.tick_position cfg st mint (some cp) now vd).fired =
        some .trailingStop) ∧
    (¬((cp - pos.entry_price) / pos.entry_price * 100 ≥ cfg.take_profit_target) →
      ¬(cfg.trailing_stop_enabled = true ∧
        (cp - pos.entry_price) / pos.entry_price * 100 > cfg.trailing_stop_activation ∧
        cp ≤ max pos.peak_price cp * (1 - cfg.trailing_stop_pct / 100)) →
      (now - pos.entry_time) / 60 ≥ cfg.max_hold_time_min →
      (TradingStrategy.tick_position cfg st mint (some cp) now vd).fired =
        some .maxHold) ∧
    (¬((cp - pos.entry_price) / pos.entry_price * 100 ≥ cfg.take_profit_target) →
      ¬(cfg.trailing_stop_enabled = true ∧
        (cp - pos.entry_price) / pos.entry_price * 100 > cfg.trailing_stop_activation ∧
        cp ≤ max pos.peak_price cp * (1 - cfg.trailing_stop_pct / 100)) →
      ¬((now - pos.entry_time) / 60 ≥ cfg.max_hold_time_min) →
      vd.getD 0 ≠ 0 → vd.getD 0 > cfg.volume_drop_threshold →
      (TradingStrategy.tick_position cfg st mint (some cp) now vd).fired =
        some .volumeDrop) ∧
    (TradingStrategy.tick_position cfg st mint (some cp) now vd).state.engine.trades.length ≤
      st.engine.trades.length + 1 := by
  have hmax : (if cp > pos.peak_price then { pos with peak_price := cp } else pos) =
      { pos with peak_price := max pos.peak_price cp } := by
    split
    · rename_i h
      rw [max_eq_right (le_of_lt h)]
    · rename_i h
      rw [max_eq_left (not_lt.mp h)]
  simp only [TradingStrategy.tick_position, hlook,
    TradingStrategy.check_exit_conditions, hmax]
  refine ⟨?_, ?_, ?_, ?_, ?_, ?_⟩
  · intro hnone
    by_cases c1 : (cp - pos.entry_price) / pos.entry_price * 100 ≥ cfg.take_profit_target
    · simp [c1] at hnone
    · by_cases c2 : cfg.trailing_stop_enabled = true ∧
          (cp - pos.entry_price) / pos.entry_price * 100 > cfg.trailing_stop_activation ∧
          cp ≤ max pos.peak_price cp * (1 - cfg.trailing_stop_pct / 100)
      · simp [c1, c2] at hnone
      · by_cases c3 : (now - pos.entry_time) / 60 ≥ cfg.max_hold_time_min
        · simp [c1, c2, c3] at hnone
        · by_cases c4 : vd.getD 0 ≠ 0 ∧ vd.getD 0 > cfg.volume_drop_threshold
          · simp [c1, c2, c3, c4] at hnone
          · simp [c1, c2, c3, c4, alookup_ainsert_self]
  · intro c1
    simp [c1]
  · intro c1 c2a c2b c2c
    simp [c1, c2a, c2b, c2c]
  · intro c1 c2 c3
    simp [c1, c2, c3]
  · intro c1 c2 c3 c4a c4b
    simp [c1, c2, c3, c4a, c4b]
  · split
    · exact strategy_sell_trades_le _ _ _ _ _ _
    · split
      · exact strategy_sell_trades_le _ _ _ _ _ _
      · split
        · exact strategy_sell_trades_le _ _ _ _ _ _
        · split
          · exact strategy_sell_trades_le _ _ _ _ _ _
          · simp

/-- A position simultaneously satisfying the take-profit threshold
(+100% ≥ 50%) and the trailing-stop trigger (price 2 is below 85% of the
peak 100): take-profit fires. -/
def c7st : StrategyState :=
  { positions := [("MINT", { entry_time := 0, entry_price := 1, tokens := 100,
                             sol_invested := 10, peak_price := 100 })]
    engine := c5engine }

theorem C7_exit_evaluation_order_witness :
    ((2 - 1 : ℚ) / 1 * 100 ≥ c5cfg.take_profit_target) ∧
    ((2 : ℚ) ≤ max (100 : ℚ) 2 * (1 - c5cfg.trailing_stop_pct / 100)) ∧
    (TradingStrategy.tick_position c5cfg c7st "MINT" (some 2) 60 none).fired =
      some .takeProfit := by
  refine ⟨by norm_num [c5cfg], by norm_num [c5cfg, max_def], ?_⟩
  exact (C7_exit_evaluation_order c5cfg c7st "MINT"
    { entry_time := 0, entry_price := 1, tokens := 100, sol_invested := 10,
      peak_price := 100 } 2 60 none (by norm_num [c7st, alookup])).2.1
    (by norm_num [c5cfg])

end PumpBot
